import Mathlib

/-!
# Verification of `networksecurity/components/data_ingestion.py`

Shallow embedding of the `DataIngestion` module: a MongoDB collection is
materialised as a tabular structure (pandas `DataFrame`), the implicit
`"_id"` column is dropped, the literal string `"na"` is normalised to the
missing-value marker (`NaN`), the table is written to a feature store, and
then partitioned into train/test files by `sklearn.train_test_split` with
`random_state=42`.

Modelling choices:
* A pandas `DataFrame` is a column-name list plus a row list, each row a
  list of cell values aligned with the columns.
* Cell values are an inductive type with a distinguished missing marker
  (`NaN`), strings and integers.
* The MongoDB client / `collection.find()` call is an oracle function from
  the connection URL and names to an outcome (documents or an error).
* The filesystem is an association list from paths to written tables; a
  write conses a binding (overwrite = shadowing, lookup takes the first).
* Python exceptions are an inductive error type; `NetworkSecurityException`
  is the constructor `PyError.nse` wrapping its cause, and each method's
  `try/except` is the corresponding `Except` plumbing.
* `sklearn.model_selection.train_test_split(df, test_size=r, random_state=42)`
  performs `_validate_shuffle_split` (for a float `test_size` it requires
  `0 < r < 1`, sets `n_test = ceil(r * n)`, `n_train = n - n_test`, and
  raises `ValueError` when `n_train = 0`), then takes a seeded pseudo-random
  permutation of the rows and cuts it: the first `n_test` shuffled rows are
  the test set and the rest the train set.  The float arithmetic of the
  size computation is idealised as exact rational arithmetic, and NumPy's
  seeded permutation is modelled by a concrete deterministic pseudo-random
  permutation (a Fisher-Yates walk driven by a linear congruential
  generator); every claim below depends only on it being a deterministic
  permutation, never on which permutation it is.
-/

instance {ε α : Type} [DecidableEq ε] [DecidableEq α] : DecidableEq (Except ε α) := fun a b =>
  match a, b with
  | Except.ok x, Except.ok y =>
      if h : x = y then Decidable.isTrue (by rw [h])
      else Decidable.isFalse (by intro hc; injection hc; exact h (by assumption))
  | Except.ok _, Except.error _ => Decidable.isFalse (by intro hc; injection hc)
  | Except.error _, Except.ok _ => Decidable.isFalse (by intro hc; injection hc)
  | Except.error x, Except.error y =>
      if h : x = y then Decidable.isTrue (by rw [h])
      else Decidable.isFalse (by intro hc; injection hc; exact h (by assumption))

/-- A cell value of the tabular structure: the missing-value marker
(`NaN`), a string, or an integer. -/
inductive Value where
  | nan : Value
  | str : String → Value
  | int : Int → Value
deriving DecidableEq, Repr

/-- One MongoDB document: an association list from field names to values
(a Python dict, so in practice keys are distinct; lookup takes the first
binding). -/
abbrev Doc := List (String × Value)

/-- A pandas `DataFrame`: column names plus rows, each row aligned with
the column list. -/
structure DataFrame where
  cols : List String
  rows : List (List Value)
deriving DecidableEq, Repr

/-- Python exceptions as they matter to this module:
`nse` is `NetworkSecurityException(cause, sys)` wrapping its original
cause, `valueError` is sklearn's `ValueError`, `pyMongoError` any
connection/authentication/transfer failure of the MongoDB client. -/
inductive PyError where
  | nse : PyError → PyError
  | valueError : String → PyError
  | pyMongoError : String → PyError
deriving DecidableEq, Repr

/-- `DataIngestionConfig` (from `entity.config_entity`): the fields the
module reads. -/
structure DataIngestionConfig where
  database_name : String
  collection_name : String
  feature_store_file_path : String
  training_file_path : String
  testing_file_path : String
  train_test_split_ratio : ℚ
deriving DecidableEq, Repr

/-- `DataIngestionArtifact` (from `entity.artifact_entity`): the result
record of `initiate_data_ingestion`. -/
structure DataIngestionArtifact where
  trained_file_path : String
  test_file_path : String
deriving DecidableEq, Repr

/-- The filesystem: paths bound to the table last written there (a write
conses; lookup takes the first binding). -/
abbrev FS := List (String × DataFrame)

/-- Writing a table to a path (`DataFrame.to_csv` with `index=False,
header=True`, after `os.makedirs(dir, exist_ok=True)`): unconditional
overwrite, modelled by shadowing. -/
def fsWrite (fs : FS) (path : String) (df : DataFrame) : FS :=
  (path, df) :: fs

/-- First-binding association-list lookup (Python dict access / pandas
column lookup). -/
def alookup {β : Type} : List (String × β) → String → Option β
  | [], _ => none
  | (k, v) :: rest, c => if k = c then some v else alookup rest c

/-- Append a key to an accumulated column list unless already present:
pandas' first-appearance column ordering when building a frame from a
list of dicts. -/
def insertKey (acc : List String) (k : String) : List String :=
  if k ∈ acc then acc else acc ++ [k]

/-- Fold one document's field names into an accumulated column list. -/
def addKeys (acc : List String) (d : Doc) : List String :=
  d.foldl (fun a kv => insertKey a kv.1) acc

/-- The union of all field names over a document list, in order of first
appearance — the column set of `pd.DataFrame(list_of_dicts)`. -/
def unionKeys (docs : List Doc) : List String :=
  docs.foldl addKeys []

/-- `pd.DataFrame(list(collection.find()))`: one row per document, columns
the union of field names, cells looked up per document with `NaN` filling
absent fields. -/
def pdDataFrame (docs : List Doc) : DataFrame :=
  let cols := unionKeys docs
  { cols := cols
    rows := docs.map fun d => cols.map fun c => (alookup d c).getD Value.nan }

/-- `df.drop(columns=[c], inplace=True)`: remove the column and the
corresponding cell of every row. -/
def DataFrame.dropColumn (df : DataFrame) (c : String) : DataFrame :=
  { cols := df.cols.filter (fun k => k ≠ c)
    rows := df.rows.map fun row =>
      ((df.cols.zip row).filter (fun kv => kv.1 ≠ c)).map Prod.snd }

/-- Cell-level normalisation of `df.replace(\x7b"na": np.nan\x7d)`: the exact
string `"na"` becomes the missing-value marker, everything else is kept. -/
def replaceNaValue (v : Value) : Value :=
  if v = Value.str "na" then Value.nan else v

/-- `df.replace(\x7b"na": np.nan\x7d, inplace=True)` over the whole frame. -/
def DataFrame.replaceNa (df : DataFrame) : DataFrame :=
  { cols := df.cols
    rows := df.rows.map fun row => row.map replaceNaValue }

/-- The cell of row `i` at column `c` (pandas `df[c][i]`), when both
exist. -/
def DataFrame.cell (df : DataFrame) (i : Nat) (c : String) : Option Value :=
  (df.rows.get? i).bind fun row => alookup (df.cols.zip row) c

/-- Module-level lines 15-17: `load_dotenv()` followed by
`MONGO_DB_URL = os.getenv("MONGO_DB_URL")` — the connection string is
captured from the environment once, when the module is imported. -/
def MONGO_DB_URL (envAtImport : String → Option String) : Option String :=
  envAtImport "MONGO_DB_URL"

/-- The outcome of `pymongo.MongoClient(url, tlsCAFile=...)`
followed by `list(client[database][collection].find())`, as an oracle:
given the connection URL and the two names, either the document list or
the error the client raised. -/
abbrev MongoOracle := Option String → String → String → Except PyError (List Doc)

/-- `DataIngestion.__init__`: stores the configuration; the `try/except`
wraps any failure, but the body is total. -/
def dataIngestionConstructor (cfg : DataIngestionConfig) :
    Except PyError DataIngestionConfig :=
  Except.ok cfg

/-- `DataIngestion.export_collection_as_dataframe` (lines 28-58): connect
with the module-level `MONGO_DB_URL`, materialise the collection, drop
`"_id"` if present, normalise `"na"` to `NaN`; any failure is re-raised as
`NetworkSecurityException`. -/
def export_collection_as_dataframe (moduleUrl : Option String)
    (cfg : DataIngestionConfig) (db : MongoOracle) :
    Except PyError DataFrame :=
  match db moduleUrl cfg.database_name cfg.collection_name with
  | Except.error e => Except.error (PyError.nse e)
  | Except.ok docs =>
      let df := pdDataFrame docs
      let df := if "_id" ∈ df.cols then df.dropColumn "_id" else df
      Except.ok df.replaceNa

/-- `DataIngestion.export_data_into_feature_store` (lines 60-77): write
the table to the feature-store path (creating directories) and hand the
same table back. -/
def export_data_into_feature_store (cfg : DataIngestionConfig)
    (dataframe : DataFrame) (fs : FS) : Except PyError DataFrame × FS :=
  (Except.ok dataframe, fsWrite fs cfg.feature_store_file_path dataframe)

/-- One step of a linear congruential generator (glibc constants), the
pseudo-random source driving the modelled permutation. -/
def lcgNext (s : Nat) : Nat :=
  (1103515245 * s + 12345) % 2147483648

/-- Fisher-Yates walk with explicit fuel: repeatedly pick a
generator-determined index, move that element to the front of the output
and recurse on the remainder.  For any fuel the output is a permutation
of the input. -/
def fisherYates {α : Type} : Nat → Nat → List α → List α
  | 0, _, l => l
  | _ + 1, _, [] => []
  | fuel + 1, s, a :: l =>
      (a :: l).get ⟨s % (a :: l).length, Nat.mod_lt s (Nat.succ_pos l.length)⟩ ::
        fisherYates fuel (lcgNext s) ((a :: l).eraseIdx (s % (a :: l).length))

/-- The seeded permutation `np.random.RandomState(seed).permutation`
applied to the rows (model: deterministic Fisher-Yates driven by
`lcgNext` from the seed). -/
def npShuffle {α : Type} (seed : Nat) (l : List α) : List α :=
  fisherYates l.length seed l

/-- Ceiling of the fraction `a / b` over the integers,
`⌈a / b⌉ = -⌊(-a) / b⌋`, written with euclidean (floor) division. -/
def ceilDiv (a : Int) (b : Nat) : Int :=
  -((-a) / b)

/-- `ceil(ratio * n)` for a rational `ratio` and a natural `n`, computed
on the numerator and denominator. -/
def ceilMulNat (ratio : ℚ) (n : Nat) : Nat :=
  (ceilDiv (ratio.num * n) ratio.den).toNat

/-- `sklearn.model_selection.train_test_split(rows, test_size=ratio,
random_state=seed)`: validate the float ratio and the resulting sizes
(`_validate_shuffle_split`: for a float `test_size` require
`0 < ratio < 1`, set `n_test = ceil(ratio * n)` and
`n_train = n - n_test`, rejecting an empty train set), shuffle with the
seeded permutation, and cut — test set first `n_test` shuffled rows,
train set the remaining `n - n_test`.  Returns `(train, test)` as the
Python call does. -/
def train_test_split {α : Type} (rows : List α) (ratio : ℚ) (seed : Nat) :
    Except PyError (List α × List α) :=
  if ratio ≤ 0 ∨ 1 ≤ ratio then
    Except.error (PyError.valueError "test_size should be in the (0, 1) range")
  else
    let n := rows.length
    let nTest := ceilMulNat ratio n
    let nTrain := n - nTest
    if nTrain = 0 then
      Except.error (PyError.valueError "the resulting train set will be empty")
    else
      let shuffled := npShuffle seed rows
      Except.ok (shuffled.drop nTest, shuffled.take nTest)

/-- The partition computed inside `split_data_as_train_test` (line 84-88):
the library call on the frame's rows with the configured ratio and the
fixed `random_state=42`. -/
def computedSplit (cfg : DataIngestionConfig) (df : DataFrame) :
    Except PyError (List (List Value) × List (List Value)) :=
  train_test_split df.rows cfg.train_test_split_ratio 42

/-- `DataIngestion.split_data_as_train_test` (lines 79-110): split, then
write the train file and the test file (with header, creating
directories); if the library call raises, the wrapped error propagates
and no file is written. -/
def split_data_as_train_test (cfg : DataIngestionConfig) (df : DataFrame)
    (fs : FS) : Except PyError Unit × FS :=
  match computedSplit cfg df with
  | Except.error e => (Except.error (PyError.nse e), fs)
  | Except.ok (train_set, test_set) =>
      let fs := fsWrite fs cfg.training_file_path ⟨df.cols, train_set⟩
      let fs := fsWrite fs cfg.testing_file_path ⟨df.cols, test_set⟩
      (Except.ok (), fs)

/-- `DataIngestion.initiate_data_ingestion` (lines 112-137): reader →
feature-store writer → splitter in strict sequence, each failure re-wrapped
as `NetworkSecurityException`; on success the artifact names the two
configured split-file paths. -/
def initiate_data_ingestion (moduleUrl : Option String)
    (cfg : DataIngestionConfig) (db : MongoOracle) (fs : FS) :
    Except PyError DataIngestionArtifact × FS :=
  match export_collection_as_dataframe moduleUrl cfg db with
  | Except.error e => (Except.error (PyError.nse e), fs)
  | Except.ok dataframe =>
      match export_data_into_feature_store cfg dataframe fs with
      | (Except.error e, fs) => (Except.error (PyError.nse e), fs)
      | (Except.ok dataframe, fs) =>
          match split_data_as_train_test cfg dataframe fs with
          | (Except.error e, fs) => (Except.error (PyError.nse e), fs)
          | (Except.ok _, fs) =>
              (Except.ok { trained_file_path := cfg.training_file_path
                           test_file_path := cfg.testing_file_path }, fs)

/-- Two-phase model of module import followed by a reader call: the module
is imported while the environment is `envAtImport` (running lines 15-17 and
binding the global `MONGO_DB_URL`), and `export_collection_as_dataframe` is
invoked later, while the environment is `envAtCall`.  The call-time
environment is not consulted: the global captured at import is what line 40
passes to `pymongo.MongoClient`. -/
def importThenCall (envAtImport envAtCall : String → Option String)
    (cfg : DataIngestionConfig) (db : MongoOracle) : Except PyError DataFrame :=
  export_collection_as_dataframe (MONGO_DB_URL envAtImport) cfg db

/-! ## Concrete data used by the witnesses -/

/-- A five-row, one-column table. -/
def rowsW : List (List Value) :=
  [[Value.int 0], [Value.int 1], [Value.int 2], [Value.int 3], [Value.int 4]]

/-- A concrete configuration with split ratio `2/5`. -/
def cfgW : DataIngestionConfig :=
  { database_name := "NetworkData"
    collection_name := "phishing"
    feature_store_file_path := "feature_store.csv"
    training_file_path := "train.csv"
    testing_file_path := "test.csv"
    train_test_split_ratio := mkRat 2 5 }

/-- The same configuration with different file paths (same ratio). -/
def cfgW2 : DataIngestionConfig :=
  { cfgW with training_file_path := "other_train.csv"
              testing_file_path := "other_test.csv" }

/-- The five-row table as a frame. -/
def dfW : DataFrame := { cols := ["x"], rows := rowsW }

/-- An empty table (zero rows). -/
def dfE : DataFrame := { cols := ["x"], rows := [] }

/-- The computed train set for `dfW` at ratio `2/5`, seed 42. -/
def trainW : List (List Value) := [[Value.int 3], [Value.int 1], [Value.int 0]]

/-- The computed test set for `dfW` at ratio `2/5`, seed 42. -/
def testW : List (List Value) := [[Value.int 2], [Value.int 4]]

/-- Five concrete MongoDB documents, with `"_id"` fields and one literal
`"na"` cell. -/
def docsW : List Doc :=
  [[("_id", Value.int 1), ("x", Value.str "na")],
   [("_id", Value.int 2), ("x", Value.int 7)],
   [("_id", Value.int 3), ("x", Value.int 8)],
   [("_id", Value.int 4), ("x", Value.int 9)],
   [("_id", Value.int 5), ("x", Value.int 10)]]

/-- The frame `export_collection_as_dataframe` produces from `docsW`:
the `"_id"` column dropped and the `"na"` cell normalised. -/
def dfExpW : DataFrame :=
  { cols := ["x"]
    rows := [[Value.nan], [Value.int 7], [Value.int 8], [Value.int 9], [Value.int 10]] }

/-- An oracle for a reachable database holding `docsW`. -/
def dbW : MongoOracle := fun _ _ _ => Except.ok docsW

/-- An oracle for an unreachable database. -/
def dbFail : MongoOracle := fun _ _ _ =>
  Except.error (PyError.pyMongoError "connection refused")

/-- An oracle whose result records which connection URL was used. -/
def dbEcho : MongoOracle := fun url _ _ =>
  Except.ok [[("url", Value.str (url.getD "none"))]]

/-- The environment at module import time. -/
def envImportC8 : String → Option String := fun _ => some "mongodb://import-time"

/-- A different environment at reader-call time. -/
def envCallC8 : String → Option String := fun _ => some "mongodb://call-time"

/-! ## Permutation facts about the modelled shuffle -/

theorem get_cons_eraseIdx_perm {α : Type} (l : List α) (i : Nat) (h : i < l.length) :
    (l.get ⟨i, h⟩ :: l.eraseIdx i).Perm l := by
  have h1 : l = l.take i ++ l[i] :: l.drop (i + 1) := by
    rw [← List.drop_eq_getElem_cons h, List.take_append_drop]
  have h2 : l.get ⟨i, h⟩ :: l.eraseIdx i = l[i] :: (l.take i ++ l.drop (i + 1)) := by
    rw [List.eraseIdx_eq_take_drop_succ, List.get_eq_getElem]
  rw [h2]
  conv_rhs => rw [h1]
  exact List.perm_middle.symm

theorem fisherYates_perm {α : Type} :
    ∀ (fuel s : Nat) (l : List α), (fisherYates fuel s l).Perm l
  | 0, _, l => List.Perm.refl l
  | _ + 1, _, [] => List.Perm.refl []
  | fuel + 1, s, a :: l => by
      show ((a :: l).get _ :: fisherYates fuel (lcgNext s) ((a :: l).eraseIdx
        (s % (a :: l).length))).Perm (a :: l)
      exact ((fisherYates_perm fuel (lcgNext s) _).cons _).trans
        (get_cons_eraseIdx_perm (a :: l) _ (Nat.mod_lt s (Nat.succ_pos l.length)))

theorem npShuffle_perm {α : Type} (seed : Nat) (l : List α) :
    (npShuffle seed l).Perm l :=
  fisherYates_perm l.length seed l

theorem npShuffle_length {α : Type} (seed : Nat) (l : List α) :
    (npShuffle seed l).length = l.length :=
  (npShuffle_perm seed l).length_eq

/-! ## The integer ceiling division and its order characterization -/

theorem ceilDiv_le_iff {a : Int} {b : Nat} (hb : (0 : Int) < b) (z : Int) :
    ceilDiv a b ≤ z ↔ a ≤ z * b := by
  unfold ceilDiv
  rw [neg_le, Int.le_ediv_iff_mul_le hb]
  constructor <;> intro h <;> linarith

theorem le_ceilDiv_mul {a : Int} {b : Nat} (hb : (0 : Int) < b) :
    a ≤ ceilDiv a b * b :=
  (ceilDiv_le_iff hb (ceilDiv a b)).mp le_rfl

theorem ceilDiv_sub_one_mul_lt {a : Int} {b : Nat} (hb : (0 : Int) < b) :
    (ceilDiv a b - 1) * b < a := by
  by_contra hcon
  push_neg at hcon
  have := (ceilDiv_le_iff hb (ceilDiv a b - 1)).mpr hcon
  omega

theorem ceilDiv_nonneg {a : Int} {b : Nat} (hb : (0 : Int) < b) (ha : 0 ≤ a) :
    0 ≤ ceilDiv a b := by
  by_contra hcon
  push_neg at hcon
  have h1 : ceilDiv a b ≤ -1 := by omega
  have h2 : ceilDiv a b * b ≤ -1 * b := mul_le_mul_of_nonneg_right h1 (le_of_lt hb)
  have h3 := le_ceilDiv_mul (a := a) hb
  omega

/-! ## Inversion of a successful `train_test_split` call -/

theorem train_test_split_ok_inv {α : Type} (rows : List α) (ratio : ℚ) (seed : Nat)
    (train test : List α)
    (h : train_test_split rows ratio seed = Except.ok (train, test)) :
    0 < ratio ∧ ratio < 1 ∧ ceilMulNat ratio rows.length < rows.length ∧
    train = (npShuffle seed rows).drop (ceilMulNat ratio rows.length) ∧
    test = (npShuffle seed rows).take (ceilMulNat ratio rows.length) := by
  simp only [train_test_split] at h
  split at h
  · simp at h
  · next hg =>
    push_neg at hg
    split at h
    · simp at h
    · next hn =>
      simp only [Except.ok.injEq, Prod.mk.injEq] at h
      exact ⟨hg.1, hg.2, by omega, h.1.symm, h.2.symm⟩

/-! ## The test-set size approximates `ratio * n` -/

theorem ceilMulNat_bounds (ratio : ℚ) (n : Nat) (h0 : 0 < ratio) :
    (ratio * n : ℚ) ≤ (ceilMulNat ratio n : ℚ) ∧
      ((ceilMulNat ratio n : ℚ) < ratio * n + 1) := by
  have hbI : (0 : Int) < (ratio.den : Int) := by exact_mod_cast ratio.den_pos
  have hbQ : (0 : ℚ) < (ratio.den : ℚ) := by exact_mod_cast ratio.den_pos
  have hnum : 0 < ratio.num := Rat.num_pos.mpr h0
  have ha : (0 : Int) ≤ ratio.num * n :=
    mul_nonneg (le_of_lt hnum) (Int.natCast_nonneg n)
  have hI : 0 ≤ ceilDiv (ratio.num * n) ratio.den := ceilDiv_nonneg hbI ha
  have htI : ((ceilMulNat ratio n : Int)) = ceilDiv (ratio.num * n) ratio.den := by
    unfold ceilMulNat
    exact Int.toNat_of_nonneg hI
  have key1 : (ratio.num * n : Int) ≤ (ceilMulNat ratio n : Int) * ratio.den := by
    rw [htI]; exact le_ceilDiv_mul hbI
  have key2 : ((ceilMulNat ratio n : Int) - 1) * ratio.den < ratio.num * n := by
    rw [htI]; exact ceilDiv_sub_one_mul_lt hbI
  have hEq : (ratio * n : ℚ) = ((ratio.num : ℚ) * n) / ratio.den := by
    conv_lhs => rw [← Rat.num_div_den ratio]
    rw [div_mul_eq_mul_div]
  constructor
  · rw [hEq, div_le_iff₀ hbQ]
    exact_mod_cast key1
  · have hB1 : ((ceilMulNat ratio n : ℚ) - 1) * ratio.den < (ratio.num : ℚ) * n := by
      exact_mod_cast key2
    have hB2 : (ceilMulNat ratio n : ℚ) - 1 < ((ratio.num : ℚ) * n) / ratio.den :=
      (lt_div_iff₀ hbQ).mpr hB1
    rw [hEq]
    linarith

/-- C1: for an input table of size `N` and configured split ratio `r`,
the partition computed by `split_data_as_train_test` consists of two
subsets that together are exactly the `N` input rows (a disjoint
partition: their concatenation is a permutation of the input, so the
counts sum to exactly `N`), the test-set size is `⌈r·N⌉` — within one of
`r·N` — the train-set size within one of `(1-r)·N`, and the two subsets
are what the method writes to the training and testing files. -/
theorem split_train_test_partition (cfg : DataIngestionConfig) (df : DataFrame)
    (fs : FS) (train_set test_set : List (List Value))
    (h : computedSplit cfg df = Except.ok (train_set, test_set)) :
    train_set.length + test_set.length = df.rows.length ∧
    (train_set ++ test_set).Perm df.rows ∧
    (cfg.train_test_split_ratio * df.rows.length : ℚ) ≤ test_set.length ∧
    ((test_set.length : ℚ) < cfg.train_test_split_ratio * df.rows.length + 1) ∧
    ((1 - cfg.train_test_split_ratio) * df.rows.length - 1 < (train_set.length : ℚ)) ∧
    ((train_set.length : ℚ) ≤ (1 - cfg.train_test_split_ratio) * df.rows.length) ∧
    split_data_as_train_test cfg df fs =
      (Except.ok (), fsWrite (fsWrite fs cfg.training_file_path ⟨df.cols, train_set⟩)
        cfg.testing_file_path ⟨df.cols, test_set⟩) := by
  obtain ⟨h0, h1, hlt, htr, hte⟩ :=
    train_test_split_ok_inv df.rows cfg.train_test_split_ratio 42 train_set test_set h
  have hlen := npShuffle_length 42 df.rows
  have hTest : test_set.length = ceilMulNat cfg.train_test_split_ratio df.rows.length := by
    rw [hte, List.length_take, hlen]
    omega
  have hTrain : train_set.length =
      df.rows.length - ceilMulNat cfg.train_test_split_ratio df.rows.length := by
    rw [htr, List.length_drop, hlen]
  have hsum : train_set.length + test_set.length = df.rows.length := by omega
  have hperm : (train_set ++ test_set).Perm df.rows := by
    rw [htr, hte]
    have hcut : (npShuffle 42 df.rows).take (ceilMulNat cfg.train_test_split_ratio
        df.rows.length) ++ (npShuffle 42 df.rows).drop (ceilMulNat cfg.train_test_split_ratio
        df.rows.length) = npShuffle 42 df.rows :=
      List.take_append_drop _ _
    have h2 : ((npShuffle 42 df.rows).take (ceilMulNat cfg.train_test_split_ratio
        df.rows.length) ++ (npShuffle 42 df.rows).drop (ceilMulNat cfg.train_test_split_ratio
        df.rows.length)).Perm df.rows := by
      rw [hcut]; exact npShuffle_perm 42 df.rows
    exact List.perm_append_comm.trans h2
  obtain ⟨hlow, hhigh⟩ := ceilMulNat_bounds cfg.train_test_split_ratio df.rows.length h0
  have hcast : ((df.rows.length - ceilMulNat cfg.train_test_split_ratio df.rows.length : Nat) : ℚ)
      = (df.rows.length : ℚ) - (ceilMulNat cfg.train_test_split_ratio df.rows.length : ℚ) := by
    have : ceilMulNat cfg.train_test_split_ratio df.rows.length ≤ df.rows.length := le_of_lt hlt
    push_cast [this]
    ring
  refine ⟨hsum, hperm, ?_, ?_, ?_, ?_, ?_⟩
  · rw [hTest]; exact hlow
  · rw [hTest]; exact hhigh
  · rw [hTrain, hcast]
    have : ((1 - cfg.train_test_split_ratio) * df.rows.length : ℚ)
        = df.rows.length - cfg.train_test_split_ratio * df.rows.length := by ring
    rw [this]
    linarith [hhigh]
  · rw [hTrain, hcast]
    have : ((1 - cfg.train_test_split_ratio) * df.rows.length : ℚ)
        = df.rows.length - cfg.train_test_split_ratio * df.rows.length := by ring
    rw [this]
    linarith [hlow]
  · simp only [split_data_as_train_test, h]

/-- Witness for `split_train_test_partition`: the concrete 5-row table
`dfW` with ratio `2/5` is split into 3 train rows and 2 test rows. -/
theorem split_train_test_partition_witness :
    trainW.length + testW.length = dfW.rows.length ∧
    (trainW ++ testW).Perm dfW.rows ∧
    (cfgW.train_test_split_ratio * dfW.rows.length : ℚ) ≤ testW.length ∧
    ((testW.length : ℚ) < cfgW.train_test_split_ratio * dfW.rows.length + 1) ∧
    ((1 - cfgW.train_test_split_ratio) * dfW.rows.length - 1 < (trainW.length : ℚ)) ∧
    ((trainW.length : ℚ) ≤ (1 - cfgW.train_test_split_ratio) * dfW.rows.length) ∧
    split_data_as_train_test cfgW dfW [] =
      (Except.ok (), fsWrite (fsWrite [] cfgW.training_file_path ⟨dfW.cols, trainW⟩)
        cfgW.testing_file_path ⟨dfW.cols, testW⟩) :=
  split_train_test_partition cfgW dfW [] trainW testW (by decide)

/-- C2: the split is deterministic — the partition computed by
`split_data_as_train_test` depends only on the input rows and the
configured ratio (the seed is the fixed `random_state=42`), so two runs
on the same table with the same ratio produce identical partitions. -/
theorem split_deterministic_fixed_seed (cfg₁ cfg₂ : DataIngestionConfig)
    (df₁ df₂ : DataFrame)
    (hr : cfg₁.train_test_split_ratio = cfg₂.train_test_split_ratio)
    (hd : df₁.rows = df₂.rows) :
    computedSplit cfg₁ df₁ = computedSplit cfg₂ df₂ := by
  unfold computedSplit
  rw [hr, hd]

/-- Witness for `split_deterministic_fixed_seed`: two configurations that
agree on the ratio (but not on the output paths) split `dfW`
identically. -/
theorem split_deterministic_fixed_seed_witness :
    computedSplit cfgW dfW = computedSplit cfgW2 dfW :=
  split_deterministic_fixed_seed cfgW cfgW2 dfW dfW rfl rfl

/-- C9: `export_data_into_feature_store` is a pass-through — the table it
hands back is exactly the input table. -/
theorem feature_store_pass_through (cfg : DataIngestionConfig) (df : DataFrame)
    (fs : FS) :
    (export_data_into_feature_store cfg df fs).1 = Except.ok df :=
  rfl

/-- C10: on an empty input table the underlying shuffle-split routine
rejects the zero-sample input, `split_data_as_train_test` raises the
wrapping domain error, and neither the training file nor the testing file
is written (the filesystem is returned unchanged). -/
theorem split_empty_table_raises (cfg : DataIngestionConfig) (df : DataFrame)
    (fs : FS) (hrows : df.rows = [])
    (h0 : 0 < cfg.train_test_split_ratio) (h1 : cfg.train_test_split_ratio < 1) :
    split_data_as_train_test cfg df fs =
      (Except.error (PyError.nse
        (PyError.valueError "the resulting train set will be empty")), fs) := by
  have hg : ¬(cfg.train_test_split_ratio ≤ 0 ∨ 1 ≤ cfg.train_test_split_ratio) := by
    push_neg
    exact ⟨h0, h1⟩
  have hcs : computedSplit cfg df =
      Except.error (PyError.valueError "the resulting train set will be empty") := by
    simp only [computedSplit, train_test_split, hrows, List.length_nil]
    rw [if_neg hg, if_pos (Nat.zero_sub _)]
  simp only [split_data_as_train_test, hcs]

/-- Witness for `split_empty_table_raises`: the empty table `dfE` with the
valid ratio `2/5`. -/
theorem split_empty_table_raises_witness :
    split_data_as_train_test cfgW dfE [] =
      (Except.error (PyError.nse
        (PyError.valueError "the resulting train set will be empty")), []) :=
  split_empty_table_raises cfgW dfE [] rfl (by decide) (by decide)

/-- C5: if the reader's database call fails, `initiate_data_ingestion`
propagates the (doubly wrapped) failure and returns the filesystem
untouched — no feature-store, training or testing file is created or
modified. -/
theorem reader_failure_writes_nothing (u : Option String)
    (cfg : DataIngestionConfig) (db : MongoOracle) (fs : FS) (e : PyError)
    (hdb : db u cfg.database_name cfg.collection_name = Except.error e) :
    initiate_data_ingestion u cfg db fs =
      (Except.error (PyError.nse (PyError.nse e)), fs) := by
  unfold initiate_data_ingestion export_collection_as_dataframe
  rw [hdb]

/-- Witness for `reader_failure_writes_nothing`: an unreachable database
leaves the empty filesystem empty. -/
theorem reader_failure_writes_nothing_witness :
    initiate_data_ingestion (some "mongodb://u") cfgW dbFail [] =
      (Except.error (PyError.nse (PyError.nse
        (PyError.pyMongoError "connection refused"))), []) :=
  reader_failure_writes_nothing (some "mongodb://u") cfgW dbFail []
    (PyError.pyMongoError "connection refused") rfl

/-! ## Every escaping error is the wrapping domain exception -/

theorem export_error_nse (u : Option String) (cfg : DataIngestionConfig)
    (db : MongoOracle) (e : PyError)
    (h : export_collection_as_dataframe u cfg db = Except.error e) :
    ∃ cause, e = PyError.nse cause := by
  unfold export_collection_as_dataframe at h
  split at h
  · next e0 _ =>
    simp only [Except.error.injEq] at h
    exact ⟨e0, h.symm⟩
  · simp at h

theorem split_error_nse (cfg : DataIngestionConfig) (df : DataFrame) (fs : FS)
    (e : PyError)
    (h : (split_data_as_train_test cfg df fs).1 = Except.error e) :
    ∃ cause, e = PyError.nse cause := by
  unfold split_data_as_train_test at h
  split at h
  · next e0 _ =>
    simp only [Except.error.injEq] at h
    exact ⟨e0, h.symm⟩
  · simp at h

theorem initiate_error_nse (u : Option String) (cfg : DataIngestionConfig)
    (db : MongoOracle) (fs : FS) (e : PyError)
    (h : (initiate_data_ingestion u cfg db fs).1 = Except.error e) :
    ∃ cause, e = PyError.nse cause := by
  unfold initiate_data_ingestion at h
  split at h
  · next e0 _ =>
    simp only [Except.error.injEq] at h
    exact ⟨e0, h.symm⟩
  · next df0 _ =>
    simp only [export_data_into_feature_store] at h
    split at h
    · next e1 fs2 _ =>
      simp only [Except.error.injEq] at h
      exact ⟨e1, h.symm⟩
    · simp at h

/-- C6: every public operation of the module — constructor, reader,
feature-store writer, splitter, orchestrator — either succeeds or fails
with the single wrapping domain error `NetworkSecurityException`
(`PyError.nse`) carrying its original cause; no unwrapped error kind
escapes, and the orchestrator hands the wrapped failure to its caller. -/
theorem operations_wrap_all_errors (u : Option String)
    (cfg : DataIngestionConfig) (db : MongoOracle) (df : DataFrame) (fs : FS) :
    (∃ c, dataIngestionConstructor cfg = Except.ok c) ∧
    ((∃ d, export_collection_as_dataframe u cfg db = Except.ok d) ∨
      (∃ cause, export_collection_as_dataframe u cfg db =
        Except.error (PyError.nse cause))) ∧
    (∃ d, (export_data_into_feature_store cfg df fs).1 = Except.ok d) ∧
    ((∃ r, (split_data_as_train_test cfg df fs).1 = Except.ok r) ∨
      (∃ cause, (split_data_as_train_test cfg df fs).1 =
        Except.error (PyError.nse cause))) ∧
    ((∃ a, (initiate_data_ingestion u cfg db fs).1 = Except.ok a) ∨
      (∃ cause, (initiate_data_ingestion u cfg db fs).1 =
        Except.error (PyError.nse cause))) := by
  refine ⟨⟨cfg, rfl⟩, ?_, ⟨df, rfl⟩, ?_, ?_⟩
  · cases hx : export_collection_as_dataframe u cfg db with
    | ok d => exact Or.inl ⟨d, rfl⟩
    | error e =>
        obtain ⟨cause, rfl⟩ := export_error_nse u cfg db e hx
        exact Or.inr ⟨cause, rfl⟩
  · cases hx : (split_data_as_train_test cfg df fs).1 with
    | ok r => exact Or.inl ⟨r, rfl⟩
    | error e =>
        obtain ⟨cause, rfl⟩ := split_error_nse cfg df fs e hx
        exact Or.inr ⟨cause, rfl⟩
  · cases hx : (initiate_data_ingestion u cfg db fs).1 with
    | ok a => exact Or.inl ⟨a, rfl⟩
    | error e =>
        obtain ⟨cause, rfl⟩ := initiate_error_nse u cfg db fs e hx
        exact Or.inr ⟨cause, rfl⟩

/-- C7: a successful `initiate_data_ingestion` returns an artifact whose
trained-file path and test-file path are exactly the configuration's
`training_file_path` and `testing_file_path`. -/
theorem artifact_paths_equal_config (u : Option String)
    (cfg : DataIngestionConfig) (db : MongoOracle) (fs : FS)
    (art : DataIngestionArtifact)
    (h : (initiate_data_ingestion u cfg db fs).1 = Except.ok art) :
    art.trained_file_path = cfg.training_file_path ∧
    art.test_file_path = cfg.testing_file_path := by
  unfold initiate_data_ingestion at h
  split at h
  · simp at h
  · next df0 _ =>
    simp only [export_data_into_feature_store] at h
    split at h
    · simp at h
    · simp only [Except.ok.injEq] at h
      subst h
      exact ⟨rfl, rfl⟩

/-- Witness for `artifact_paths_equal_config`: the full pipeline on the
concrete collection `docsW` returns the configured paths. -/
theorem artifact_paths_equal_config_witness :
    ({ trained_file_path := "train.csv",
       test_file_path := "test.csv" } : DataIngestionArtifact).trained_file_path
        = cfgW.training_file_path ∧
    ({ trained_file_path := "train.csv",
       test_file_path := "test.csv" } : DataIngestionArtifact).test_file_path
        = cfgW.testing_file_path :=
  artifact_paths_equal_config (some "u") cfgW dbW []
    { trained_file_path := "train.csv", test_file_path := "test.csv" } (by decide)

/-- C8 counterexample: the connection string is NOT re-read from the
environment at each reader invocation.  With the environment holding
`"mongodb://import-time"` at module import and `"mongodb://call-time"`
when the reader runs, the actual call (which connects with the global
bound at import, line 17/line 40) behaves differently from a reader that
read the variable at call time — refuting the claim as stated. -/
theorem url_env_read_per_call_refuted :
    importThenCall envImportC8 envCallC8 cfgW dbEcho ≠
      export_collection_as_dataframe (envCallC8 "MONGO_DB_URL") cfgW dbEcho := by
  decide

/-- C8 amended: the connection-string environment variable is read once,
at module import time (`load_dotenv(); MONGO_DB_URL = os.getenv(...)`,
lines 15-17); every call to `export_collection_as_dataframe` uses that
import-time capture, regardless of what the environment holds at call
time. -/
theorem url_captured_at_import (envAtImport envCallA envCallB : String → Option String)
    (cfg : DataIngestionConfig) (db : MongoOracle) :
    importThenCall envAtImport envCallA cfg db = importThenCall envAtImport envCallB cfg db ∧
    importThenCall envAtImport envCallA cfg db =
      export_collection_as_dataframe (envAtImport "MONGO_DB_URL") cfg db :=
  ⟨rfl, rfl⟩

/-! ## The shape of a successful export -/

theorem zip_map_self (cols : List String) (f : String → Value) :
    cols.zip (cols.map f) = cols.map (fun c => (c, f c)) := by
  induction cols with
  | nil => rfl
  | cons c cs ih => simp [List.zip_cons_cons, ih]

theorem alookup_map_self (cols : List String) (f : String → Value) (k : String) :
    alookup (cols.map (fun c => (c, f c))) k =
      if k ∈ cols then some (f k) else none := by
  induction cols with
  | nil => rfl
  | cons c cs ih =>
      by_cases hck : c = k
      · subst hck
        simp [alookup]
      · have hkc : ¬(k = c) := fun h => hck h.symm
        simp [alookup, hck, hkc, ih]

theorem row_drop (cols : List String) (f : String → Value) (c : String) :
    ((cols.zip (cols.map f)).filter (fun kv => kv.1 ≠ c)).map Prod.snd
      = (cols.filter (fun k => k ≠ c)).map f := by
  rw [zip_map_self, List.filter_map, List.map_map]
  rfl

theorem export_ok_shape (u : Option String) (cfg : DataIngestionConfig)
    (db : MongoOracle) (docs : List Doc)
    (hdb : db u cfg.database_name cfg.collection_name = Except.ok docs) :
    ∃ cols : List String,
      export_collection_as_dataframe u cfg db = Except.ok
        { cols := cols
          rows := docs.map fun d => cols.map
            fun c => replaceNaValue ((alookup d c).getD Value.nan) } ∧
      ∀ k, k ∈ cols ↔ (k ∈ unionKeys docs ∧ k ≠ "_id") := by
  by_cases hid : "_id" ∈ unionKeys docs
  · refine ⟨(unionKeys docs).filter (fun k => k ≠ "_id"), ?_, ?_⟩
    · simp only [export_collection_as_dataframe, hdb, pdDataFrame]
      rw [if_pos hid]
      simp only [DataFrame.dropColumn, DataFrame.replaceNa, List.map_map,
        Except.ok.injEq, DataFrame.mk.injEq]
      refine ⟨trivial, ?_⟩
      apply List.map_congr_left
      intro d _
      simp only [Function.comp]
      rw [row_drop, List.map_map]
      rfl
    · intro k
      simp [List.mem_filter]
  · refine ⟨unionKeys docs, ?_, ?_⟩
    · simp only [export_collection_as_dataframe, hdb, pdDataFrame]
      rw [if_neg hid]
      simp only [DataFrame.replaceNa, List.map_map, Except.ok.injEq,
        DataFrame.mk.injEq]
      refine ⟨trivial, ?_⟩
      apply List.map_congr_left
      intro d _
      simp only [Function.comp]
      rw [List.map_map]
      rfl
    · intro k
      constructor
      · intro hk
        refine ⟨hk, ?_⟩
        rintro rfl
        exact hid hk
      · exact fun h => h.1

/-! ## Membership in the union of document keys -/

theorem mem_insertKey_self (acc : List String) (k : String) :
    k ∈ insertKey acc k := by
  unfold insertKey
  split
  · assumption
  · simp

theorem mem_insertKey_of_mem (acc : List String) (k x : String) (h : x ∈ acc) :
    x ∈ insertKey acc k := by
  unfold insertKey
  split
  · exact h
  · exact List.mem_append_left _ h

theorem mem_addKeys_of_mem (x : String) :
    ∀ (d : Doc) (acc : List String), x ∈ acc → x ∈ addKeys acc d
  | [], _, h => h
  | kv :: rest, acc, h =>
      mem_addKeys_of_mem x rest (insertKey acc kv.1)
        (mem_insertKey_of_mem acc kv.1 x h)

theorem mem_addKeys_of_lookup (k : String) (v : Value) :
    ∀ (d : Doc) (acc : List String), alookup d k = some v → k ∈ addKeys acc d := by
  intro d
  induction d with
  | nil => intro acc h; simp [alookup] at h
  | cons kv rest ih =>
      intro acc h
      obtain ⟨k1, v1⟩ := kv
      by_cases hk : k1 = k
      · subst hk
        exact mem_addKeys_of_mem k1 rest (insertKey acc k1) (mem_insertKey_self acc k1)
      · have : alookup rest k = some v := by
          simpa [alookup, hk] using h
        exact ih (insertKey acc k1) this

theorem mem_foldl_addKeys (k : String) (v : Value) :
    ∀ (docs : List Doc) (acc : List String),
      (k ∈ acc ∨ ∃ d, d ∈ docs ∧ alookup d k = some v) → k ∈ docs.foldl addKeys acc := by
  intro docs
  induction docs with
  | nil =>
      intro acc h
      rcases h with h | ⟨d, hd, _⟩
      · exact h
      · simp at hd
  | cons d0 ds ih =>
      intro acc h
      rcases h with h | ⟨d, hd, hl⟩
      · exact ih (addKeys acc d0) (Or.inl (mem_addKeys_of_mem k d0 acc h))
      · rcases List.mem_cons.mp hd with rfl | hd'
        · exact ih (addKeys acc d) (Or.inl (mem_addKeys_of_lookup k v d acc hl))
        · exact ih (addKeys acc d0) (Or.inr ⟨d, hd', hl⟩)

theorem mem_unionKeys (docs : List Doc) (i : Nat) (d : Doc) (k : String) (v : Value)
    (hi : docs.get? i = some d) (hk : alookup d k = some v) :
    k ∈ unionKeys docs :=
  mem_foldl_addKeys k v docs [] (Or.inr ⟨d, List.get?_mem hi, hk⟩)

/-! ## Reading a cell of a tabular frame -/

theorem cell_tabular (cols : List String) (docs : List Doc)
    (F : Doc → String → Value) (i : Nat) (d : Doc) (k : String)
    (hi : docs.get? i = some d) (hk : k ∈ cols) :
    (DataFrame.mk cols (docs.map fun d => cols.map (F d))).cell i k
      = some (F d k) := by
  unfold DataFrame.cell
  simp only [List.get?_map, hi, Option.map_some']
  simp only [Option.some_bind]
  rw [zip_map_self, alookup_map_self, if_pos hk]

/-- C3: for a source collection of `N` documents, the exported Feature
Table has exactly `N` rows and the per-document identifier column
`"_id"` is absent from it (whether or not the documents carried one). -/
theorem export_row_count_and_no_id (u : Option String)
    (cfg : DataIngestionConfig) (db : MongoOracle) (docs : List Doc)
    (df : DataFrame)
    (hdb : db u cfg.database_name cfg.collection_name = Except.ok docs)
    (hex : export_collection_as_dataframe u cfg db = Except.ok df) :
    df.rows.length = docs.length ∧ "_id" ∉ df.cols := by
  obtain ⟨cols, hform, hiff⟩ := export_ok_shape u cfg db docs hdb
  rw [hform] at hex
  simp only [Except.ok.injEq] at hex
  subst hex
  constructor
  · exact List.length_map docs _
  · intro hmem
    exact ((hiff "_id").mp hmem).2 rfl

/-- Witness for `export_row_count_and_no_id`: the five documents `docsW`
(which carry `"_id"` fields) export to a five-row frame without the
identifier column. -/
theorem export_row_count_and_no_id_witness :
    dfExpW.rows.length = docsW.length ∧ "_id" ∉ dfExpW.cols :=
  export_row_count_and_no_id (some "u") cfgW dbW docsW dfExpW rfl (by decide)

/-- C4: in the exported table, a source-document field whose value is the
literal string `"na"` appears as the missing-value marker, and a field
holding any other value appears unchanged — cell `(i, k)` of the result
is the normalisation of document `i`'s field `k`. -/
theorem export_na_normalised (u : Option String) (cfg : DataIngestionConfig)
    (db : MongoOracle) (docs : List Doc) (df : DataFrame) (i : Nat) (d : Doc)
    (k : String) (v : Value)
    (hdb : db u cfg.database_name cfg.collection_name = Except.ok docs)
    (hex : export_collection_as_dataframe u cfg db = Except.ok df)
    (hi : docs.get? i = some d)
    (hk : alookup d k = some v)
    (hne : k ≠ "_id") :
    df.cell i k = some (if v = Value.str "na" then Value.nan else v) := by
  obtain ⟨cols, hform, hiff⟩ := export_ok_shape u cfg db docs hdb
  rw [hform] at hex
  simp only [Except.ok.injEq] at hex
  subst hex
  have hkc : k ∈ cols := (hiff k).mpr ⟨mem_unionKeys docs i d k v hi hk, hne⟩
  have hcell := cell_tabular cols docs
    (fun d c => replaceNaValue ((alookup d c).getD Value.nan)) i d k hi hkc
  rw [hcell]
  have hgd : (alookup d k).getD Value.nan = v := by rw [hk]; rfl
  simp only [hgd]
  rfl

/-- Witness for `export_na_normalised`: the `"na"` cell of the first
document of `docsW` is exported as the missing-value marker. -/
theorem export_na_normalised_witness :
    dfExpW.cell 0 "x" = some (if Value.str "na" = Value.str "na"
      then Value.nan else Value.str "na") :=
  export_na_normalised (some "u") cfgW dbW docsW dfExpW 0
    [("_id", Value.int 1), ("x", Value.str "na")] "x" (Value.str "na")
    rfl (by decide) rfl rfl (by decide)
